import Mathlib

/-!
Verification of the Monte Carlo radiative-transfer core of the tardis
repository.  The Python source in `src/tardis` is shallowly embedded over the
real numbers: float64 scalars become `ℝ`, numpy arrays become index functions,
the packet record becomes a structure, and the `MonteCarloException` raised by
`calculate_distance_line` becomes an `Except` value.  Random draws (the
exponential `tau_event`, the scattering direction) are passed in as explicit
arguments.
-/

namespace Tardis

/-- Constant from `src/tardis/montecarlo/montecarlo_numba/r_packet.py`:
`CLOSE_LINE_THRESHOLD = 1e-7`. -/
def CLOSE_LINE_THRESHOLD : ℝ := 1e-7

/-- Constant from `r_packet.py`: `C_SPEED_OF_LIGHT = const.c.to('cm/s').value`,
the speed of light in cm/s. -/
def C_SPEED_OF_LIGHT : ℝ := 29979245800

/-- Constant from `r_packet.py`: `MISS_DISTANCE = 1e99`. -/
def MISS_DISTANCE : ℝ := 1e99

/-- Constant from `r_packet.py`: `SIGMA_THOMSON = const.sigma_T.to('cm^2').value`,
the Thomson cross-section in cm² (external astropy constant). -/
def SIGMA_THOMSON : ℝ := 6.6524587e-25

/-- `PacketStatus` from `r_packet.py`. -/
inductive PacketStatus where
  | IN_PROCESS
  | EMITTED
  | REABSORBED
deriving DecidableEq

/-- `InteractionType` from `r_packet.py`. -/
inductive InteractionType where
  | BOUNDARY
  | LINE
  | ESCATTERING
deriving DecidableEq

/-- The error raised by `calculate_distance_line` in `r_packet.py`
(`MonteCarloException('nu difference is less than 0.0')`). -/
inductive MonteCarloException where
  | negativeNuDiff
deriving DecidableEq

/-- The mutable packet record (`rpacket_spec` / `RPacket` in `r_packet.py`).
`current_shell_id` is an `int64` in the source and is kept as `ℤ` so that the
negative-index check of `move_packet_across_shell_boundary` is representable. -/
structure RPacket where
  r : ℝ
  mu : ℝ
  nu : ℝ
  energy : ℝ
  next_line_id : ℕ
  current_shell_id : ℤ
  status : PacketStatus

/-- `calculate_distance_boundary` from `r_packet.py` (lines 42-62). -/
noncomputable def calculate_distance_boundary (r mu r_inner r_outer : ℝ) :
    ℝ × ℤ :=
  if mu > 0 then
    -- direction outward
    (Real.sqrt (r_outer ^ 2 + (mu ^ 2 - 1) * r ^ 2) - r * mu, 1)
  else
    -- going inward
    if r_inner ^ 2 + r ^ 2 * (mu ^ 2 - 1) ≥ 0 then
      -- hit inner boundary
      (-r * mu - Real.sqrt (r_inner ^ 2 + r ^ 2 * (mu ^ 2 - 1)), -1)
    else
      -- miss inner boundary
      (Real.sqrt (r_outer ^ 2 + (mu ^ 2 - 1) * r ^ 2) - r * mu, 1)

/-- `calculate_distance_line` from `r_packet.py` (lines 64-75).  The `raise`
branch becomes `Except.error`. -/
noncomputable def calculate_distance_line (nu comov_nu nu_line time_explosion : ℝ) :
    Except MonteCarloException ℝ :=
  if nu_line = 0 then Except.ok MISS_DISTANCE
  else
    let nu_diff := comov_nu - nu_line
    let nu_diff := if |nu_diff / comov_nu| < CLOSE_LINE_THRESHOLD then 0 else nu_diff
    if nu_diff ≥ 0 then
      Except.ok ((nu_diff / nu) * C_SPEED_OF_LIGHT * time_explosion)
    else
      Except.error MonteCarloException.negativeNuDiff

/-- `calculate_distance_electron` from `r_packet.py`. -/
noncomputable def calculate_distance_electron (electron_density tau_event : ℝ) : ℝ :=
  tau_event / (electron_density * SIGMA_THOMSON)

/-- `calculate_tau_electron` from `r_packet.py`. -/
noncomputable def calculate_tau_electron (electron_density distance : ℝ) : ℝ :=
  electron_density * SIGMA_THOMSON * distance

/-- `get_doppler_factor` from `r_packet.py`: `1 - mu * beta` with
`beta = (r / time_explosion) / c`. -/
noncomputable def get_doppler_factor (r mu time_explosion : ℝ) : ℝ :=
  1 - mu * ((r / time_explosion) / C_SPEED_OF_LIGHT)

/-- Result of `trace_packet` in `r_packet.py`: the chosen distance, the
interaction type, and the value stored into `r_packet.next_line_id`. -/
structure TraceResult where
  distance : ℝ
  interaction : InteractionType
  next_line_id : ℕ

/-- The `for cur_line_id in range(start_line_id, len(line_list_nu))` loop of
`trace_packet` in `r_packet.py` (lines 160-218), including the `else` clause
run when no `break` occurs.  `lineNu l` is `line_list_nu[l]`, `tauSob l` is
`tau_sobolev[l, current_shell_id]`, `ne` the shell's electron density, `dB` the
precomputed boundary distance, `tauComb` the running `tau_trace_line_combined`
and `dE` the current `distance_electron`. -/
noncomputable def trace_packet_loop (lineNu tauSob : ℕ → ℝ) (L : ℕ)
    (nu comov_nu time_explosion ne dB tau_event : ℝ) (cur : ℕ)
    (tauComb dE : ℝ) : Except MonteCarloException TraceResult :=
  if _h : cur < L then
    match calculate_distance_line nu comov_nu (lineNu cur) time_explosion with
    | Except.error e => Except.error e
    | Except.ok distance_trace =>
      if dB ≤ distance_trace ∧ dB ≤ dE then
        Except.ok ⟨dB, InteractionType.BOUNDARY, cur⟩
      else if dE < distance_trace ∧ dE < dB then
        Except.ok ⟨dE, InteractionType.ESCATTERING, cur⟩
      else if (tauComb + tauSob cur) + calculate_tau_electron ne distance_trace >
          tau_event then
        Except.ok ⟨distance_trace, InteractionType.LINE, cur⟩
      else
        trace_packet_loop lineNu tauSob L nu comov_nu time_explosion ne dB
          tau_event (cur + 1) (tauComb + tauSob cur)
          (calculate_distance_electron ne (tau_event - (tauComb + tauSob cur)))
  else
    -- executed when no break occurs in the for loop; the Python loop variable
    -- then equals `cur` (the line index past the last one examined)
    if dE < dB then Except.ok ⟨dE, InteractionType.ESCATTERING, cur⟩
    else Except.ok ⟨dB, InteractionType.BOUNDARY, cur⟩
termination_by L - cur
decreasing_by omega

/-- `trace_packet` from `r_packet.py` (lines 119-222).  The random exponential
draw `tau_event` is an explicit argument; the result carries the chosen
distance, the interaction type, `delta_shell`, and the new `next_line_id`. -/
noncomputable def trace_packet (p : RPacket) (r_inner r_outer : ℕ → ℝ)
    (time_explosion : ℝ) (lineNu : ℕ → ℝ) (L : ℕ) (tauSobolev : ℕ → ℕ → ℝ)
    (electron_density : ℕ → ℝ) (tau_event : ℝ) :
    Except MonteCarloException (ℝ × InteractionType × ℤ × ℕ) :=
  let s := p.current_shell_id.toNat
  let bd := calculate_distance_boundary p.r p.mu (r_inner s) (r_outer s)
  let ne := electron_density s
  let dE := calculate_distance_electron ne tau_event
  let comov_nu := p.nu * get_doppler_factor p.r p.mu time_explosion
  (trace_packet_loop lineNu (fun l => tauSobolev l s) L p.nu comov_nu
      time_explosion ne bd.1 tau_event p.next_line_id 0 dE).map
    (fun res => (res.distance, res.interaction, bd.2, res.next_line_id))

/-- Outcome of one step of the spec's decision rule (spec §4.4). -/
inductive StepChoice where
  | BOUNDARY
  | ESCATTER
  | LINE
  | ADVANCE
deriving DecidableEq

/-- The decision rule at each line, following the spec's words (§4.4): boundary
when `d_boundary ≤ d_line` and `d_boundary ≤ d_scatter`; else electron scatter
when `d_scatter < d_line` and `d_scatter < d_boundary`; else a line event when
the accumulated line-plus-electron optical depth exceeds the sampled tau
budget; otherwise advance to the next line.  Ties favor BOUNDARY, then
E_SCATTER, then LINE. -/
noncomputable def spec_decision (d_boundary d_line d_scatter tau_acc tau_budget : ℝ) :
    StepChoice :=
  if d_boundary ≤ d_line ∧ d_boundary ≤ d_scatter then StepChoice.BOUNDARY
  else if d_scatter < d_line ∧ d_scatter < d_boundary then StepChoice.ESCATTER
  else if tau_acc > tau_budget then StepChoice.LINE
  else StepChoice.ADVANCE

/-- The per-shell estimator arrays (`numba_estimator` in `r_packet.py`). -/
structure NumbaEstimator where
  j_estimator : ℕ → ℝ
  nu_bar_estimator : ℕ → ℝ

/-- `move_rpacket` from `r_packet.py` (lines 225-249): accumulate the `J` and
`nu_bar` estimators with the pre-move co-moving values, then advance `r` and
`mu` (only when `distance > 0`, as in the source). -/
noncomputable def move_rpacket (p : RPacket) (distance time_explosion : ℝ)
    (est : NumbaEstimator) : RPacket × NumbaEstimator :=
  let doppler_factor := get_doppler_factor p.r p.mu time_explosion
  let comov_nu := p.nu * doppler_factor
  let comov_energy := p.energy * doppler_factor
  let s := p.current_shell_id.toNat
  let est' : NumbaEstimator :=
    { j_estimator :=
        Function.update est.j_estimator s
          (est.j_estimator s + comov_energy * distance),
      nu_bar_estimator :=
        Function.update est.nu_bar_estimator s
          (est.nu_bar_estimator s + comov_energy * distance * comov_nu) }
  let p' :=
    if 0 < distance then
      let new_r := Real.sqrt (p.r ^ 2 + distance ^ 2 + 2 * p.r * distance * p.mu)
      { p with mu := (p.mu * p.r + distance) / new_r, r := new_r }
    else p
  (p', est')

/-- `move_packet_across_shell_boundary` from `r_packet.py` (lines 251-277). -/
def move_packet_across_shell_boundary (p : RPacket) (delta_shell no_of_shells : ℤ) :
    RPacket :=
  let next_shell_id := p.current_shell_id + delta_shell
  if next_shell_id ≥ no_of_shells then { p with status := PacketStatus.EMITTED }
  else if next_shell_id < 0 then { p with status := PacketStatus.REABSORBED }
  else { p with current_shell_id := next_shell_id }

/-- `line_emission` from `r_packet.py` (lines 280-296): re-emit at the chosen
line's co-moving frequency (converted to the lab frame) and advance
`next_line_id`; the packet energy is untouched. -/
noncomputable def line_emission (p : RPacket) (emission_line_id : ℕ)
    (lineNu : ℕ → ℝ) (time_explosion : ℝ) : RPacket :=
  { p with
      nu := lineNu emission_line_id / get_doppler_factor p.r p.mu time_explosion,
      next_line_id := emission_line_id + 1 }

/-- Modelled from the spec: `get_inverse_doppler_factor` lives in the
`frame_transformations` module that is absent from `src/`; spec §4.3 gives
`D⁻¹(r, μ) = 1 / (1 − μβ)` with `β = r / (c t_exp)`. -/
noncomputable def get_inverse_doppler_factor (r mu time_explosion : ℝ) : ℝ :=
  1 / (1 - mu * ((r / time_explosion) / C_SPEED_OF_LIGHT))

/-- `set_packet_props_partial_relativity` from `single_packet_loop.py`:
`nu` and `energy` are both multiplied by the inverse Doppler factor. -/
noncomputable def set_packet_props_partial_relativity (p : RPacket)
    (time_explosion : ℝ) : RPacket :=
  { p with
      nu := p.nu * get_inverse_doppler_factor p.r p.mu time_explosion,
      energy := p.energy * get_inverse_doppler_factor p.r p.mu time_explosion }

/-- Modelled from the spec: `thomson_scatter` lives in the `interaction`
module that is absent from `src/`; spec §4.6 gives, with `β` at the current
`r`, `D_old = 1 − μβ`, `μ_lab = (μ_cmf + β)/(1 + βμ_cmf)`,
`D_new = 1 − μ_lab β`, `ν ← ν·D_old/D_new` and `E` scaling analogously.  The
freshly drawn co-moving direction `mu_cmf` is an explicit argument. -/
noncomputable def thomson_scatter (p : RPacket) (time_explosion mu_cmf : ℝ) :
    RPacket :=
  let beta := (p.r / time_explosion) / C_SPEED_OF_LIGHT
  let doppler_old := get_doppler_factor p.r p.mu time_explosion
  let mu_lab := (mu_cmf + beta) / (1 + beta * mu_cmf)
  let doppler_new := 1 - mu_lab * beta
  { p with
      mu := mu_lab,
      nu := p.nu * doppler_old / doppler_new,
      energy := p.energy * doppler_old / doppler_new }

/-- The `while r_packet.status == PacketStatus.IN_PROCESS` loop of
`single_packet_loop` in `single_packet_loop.py`, with the loop body abstracted
as `body` and an explicit fuel bound; `some` is returned exactly when the
guard fails (the packet has terminated) within the fuel. -/
def single_packet_loop_while (body : RPacket → RPacket) :
    ℕ → RPacket → Option RPacket
  | 0, p => if p.status = PacketStatus.IN_PROCESS then none else some p
  | n + 1, p =>
    if p.status = PacketStatus.IN_PROCESS then
      single_packet_loop_while body n (body p)
    else some p

/-- The output-buffer write of `montecarlo_main_loop` in
`montecarlo_numba/base.py` (lines 35-38): `-energy` for REABSORBED packets,
`+energy` for EMITTED packets, and no write (`none`) otherwise. -/
def output_energy_entry (p : RPacket) : Option ℝ :=
  if p.status = PacketStatus.REABSORBED then some (-p.energy)
  else if p.status = PacketStatus.EMITTED then some p.energy
  else none

/-- `montecarlo_main_loop` from `montecarlo_numba/base.py` (lines 28-41): each
packet starts at `r_inner[0]` with the sampled `(mu, nu, energy)`, shell 0 and
status IN_PROCESS, is run through the single-packet loop, and its `nu` and
signed output energy are recorded. -/
def montecarlo_main_loop (body : RPacket → RPacket) (fuel : ℕ) (r_inner0 : ℝ)
    (packets : List (ℝ × ℝ × ℝ)) : List (Option (ℝ × Option ℝ)) :=
  packets.map (fun q =>
    let p0 : RPacket :=
      { r := r_inner0, mu := q.1, nu := q.2.1, energy := q.2.2,
        next_line_id := 0, current_shell_id := 0,
        status := PacketStatus.IN_PROCESS }
    (single_packet_loop_while body fuel p0).map
      (fun p' => (p'.nu, output_energy_entry p')))

/-- `T_RADIATIVE_ESTIMATOR_CONSTANT` from `montecarlo_state.py` (lines 18-20):
`(π⁴ / (15 · 24 · ζ(5))) · (h / k_B)`.  The external astropy/scipy constants
`h`, `k_B` and `ζ(5)` are parameters. -/
noncomputable def T_RADIATIVE_ESTIMATOR_CONSTANT (h_cgs k_B zeta5 : ℝ) : ℝ :=
  (Real.pi ^ 4 / (15 * 24 * zeta5)) * (h_cgs / k_B)

/-- `MonteCarloTransportState.calculate_radiationfield_properties` from
`montecarlo_state.py` (lines 76-106), elementwise over shells: first the
radiative-temperature estimate, then the dilution factor derived from it. -/
noncomputable def calculate_radiationfield_properties (h_cgs k_B sigma_sb zeta5 : ℝ)
    (nu_bar_estimator j_estimator volume : ℕ → ℝ) (time_of_simulation : ℝ) :
    (ℕ → ℝ) × (ℕ → ℝ) :=
  let estimated_t_radiative : ℕ → ℝ := fun s =>
    T_RADIATIVE_ESTIMATOR_CONSTANT h_cgs k_B zeta5 * nu_bar_estimator s /
      j_estimator s
  let dilution_factor : ℕ → ℝ := fun s =>
    j_estimator s /
      (4 * sigma_sb * estimated_t_radiative s ^ 4 * time_of_simulation *
        volume s)
  (estimated_t_radiative, dilution_factor)

/-- The two error exits of `from_config` (`ValueError` in the source). -/
inductive ComputeModeError where
  | noCudaGpu
  | invalidComputeOption
deriving DecidableEq

/-- The `running_mode` dispatch of `MonteCarloTransportSolver.from_config` in
`transport/montecarlo/base.py` (lines 258-276): `running_mode` is the
uppercased `config.spectrum.integrated.compute` string; GPU mode requires an
available CUDA device, AUTOMATIC follows availability, CPU never uses the
GPU, and anything else is rejected. -/
def from_config_use_gpu (running_mode : String) (cuda_available : Bool) :
    Except ComputeModeError Bool :=
  if running_mode = "GPU" then
    if cuda_available then Except.ok true
    else Except.error ComputeModeError.noCudaGpu
  else if running_mode = "AUTOMATIC" then Except.ok cuda_available
  else if running_mode = "CPU" then Except.ok false
  else Except.error ComputeModeError.invalidComputeOption

/-- The same dispatch in the legacy `MontecarloTransportSolver.from_config` of
`montecarlo/base.py` (lines 416-437), whose AUTOMATIC branch is written with an
explicit if/else. -/
def from_config_use_gpu_legacy (running_mode : String) (cuda_available : Bool) :
    Except ComputeModeError Bool :=
  if running_mode = "GPU" then
    if cuda_available then Except.ok true
    else Except.error ComputeModeError.noCudaGpu
  else if running_mode = "AUTOMATIC" then
    (if cuda_available then Except.ok true else Except.ok false)
  else if running_mode = "CPU" then Except.ok false
  else Except.error ComputeModeError.invalidComputeOption

/-- The first phase of `fast_calculate_transition_probabilities` in
`src/tardis/opacities/macro_atom/util.py` (lines 33-45): row `i`, column `j` is
`coef[i] * beta_sobolev[lines_idx[i], j]`, additionally multiplied by
`stimulated_emission_factor * j_blues` when `transition_type[i] == 1`. -/
noncomputable def transition_probabilities_unnormalized
    (transition_probability_coef : ℕ → ℝ)
    (beta_sobolev j_blues stimulated_emission_factor : ℕ → ℕ → ℝ)
    (transition_type : ℕ → ℤ) (lines_idx : ℕ → ℕ) : ℕ → ℕ → ℝ :=
  fun i j =>
    if transition_type i = 1 then
      transition_probability_coef i * beta_sobolev (lines_idx i) j *
        (stimulated_emission_factor (lines_idx i) j * j_blues (lines_idx i) j)
    else
      transition_probability_coef i * beta_sobolev (lines_idx i) j

/-- One block of the normalization loop of
`fast_calculate_transition_probabilities` (util.py lines 47-61): rows in
`[block_references i, block_references (i+1))` are scaled per column by
`1 / norm_factor` when the column's block sum `norm_factor` is nonzero, and by
`1.0` otherwise. -/
noncomputable def normalize_block_step (block_references : ℕ → ℕ)
    (tp : ℕ → ℕ → ℝ) (i : ℕ) : ℕ → ℕ → ℝ :=
  fun j k =>
    if block_references i ≤ j ∧ j < block_references (i + 1) then
      let norm_factor :=
        ∑ l ∈ Finset.Ico (block_references i) (block_references (i + 1)), tp l k
      if norm_factor ≠ 0 then tp j k * (1 / norm_factor) else tp j k * 1
    else tp j k

/-- The `if normalize:` loop of `fast_calculate_transition_probabilities`
(util.py lines 47-61): blocks `i = 0 … B-2` are normalized in order, where `B`
is `block_references.shape[0]`. -/
noncomputable def normalize_blocks (block_references : ℕ → ℕ) (B : ℕ)
    (tp : ℕ → ℕ → ℝ) : ℕ → ℕ → ℝ :=
  (List.range (B - 1)).foldl (normalize_block_step block_references) tp

/-- `fast_calculate_transition_probabilities` from
`src/tardis/opacities/macro_atom/util.py`. -/
noncomputable def fast_calculate_transition_probabilities
    (transition_probability_coef : ℕ → ℝ)
    (beta_sobolev j_blues stimulated_emission_factor : ℕ → ℕ → ℝ)
    (transition_type : ℕ → ℤ) (lines_idx : ℕ → ℕ) (block_references : ℕ → ℕ)
    (B : ℕ) (normalize : Bool) : ℕ → ℕ → ℝ :=
  let tp := transition_probabilities_unnormalized transition_probability_coef
    beta_sobolev j_blues stimulated_emission_factor transition_type lines_idx
  if normalize then normalize_blocks block_references B tp else tp

/-- Claim C10: for every call of `calculate_distance_line` with `nu_line = 0`,
the function returns the sentinel `MISS_DISTANCE = 1e99` immediately, without
raising, regardless of the other arguments. -/
theorem calculate_distance_line_zero_nu_line (nu comov_nu time_explosion : ℝ) :
    calculate_distance_line nu comov_nu 0 time_explosion =
      Except.ok MISS_DISTANCE := by
  simp [calculate_distance_line]

/-- Claim C2 (counterexample): the claim's clamp test `|nu_diff|/comov_nu < 1e-7`
differs from the code's `|nu_diff / comov_nu| < 1e-7` when `comov_nu < 0`.
At `nu = 1`, `comov_nu = -1`, `nu_line = 1`, `t_exp = 1` the claim's test holds
(so the claim predicts a clamp to `0` and a normal return), yet the code takes
the negative-`nu_diff` error branch. -/
theorem calculate_distance_line_claim_clamp_counterexample :
    (0 : ℝ) < 1 ∧ |(-1 : ℝ) - 1| / (-1) < CLOSE_LINE_THRESHOLD ∧
      calculate_distance_line 1 (-1) 1 1 =
        Except.error MonteCarloException.negativeNuDiff := by
  refine ⟨by norm_num, by norm_num [CLOSE_LINE_THRESHOLD], ?_⟩
  norm_num [calculate_distance_line, CLOSE_LINE_THRESHOLD]

/-- Claim C2 (amended): for every call of `calculate_distance_line` with
`nu_line > 0`: letting `nu_diff = comov_nu - nu_line`, if
`|nu_diff / comov_nu| < 1e-7` then `nu_diff` is clamped to `0`; the function
raises a `MonteCarloException` if and only if the post-clamp `nu_diff` is
negative, and otherwise returns `(nu_diff / nu) * c * t_exp`. -/
theorem calculate_distance_line_spec (nu comov_nu nu_line time_explosion : ℝ)
    (hline : 0 < nu_line) :
    (calculate_distance_line nu comov_nu nu_line time_explosion =
        Except.error MonteCarloException.negativeNuDiff ↔
      (if |(comov_nu - nu_line) / comov_nu| < CLOSE_LINE_THRESHOLD then (0 : ℝ)
        else comov_nu - nu_line) < 0) ∧
    (0 ≤ (if |(comov_nu - nu_line) / comov_nu| < CLOSE_LINE_THRESHOLD then (0 : ℝ)
        else comov_nu - nu_line) →
      calculate_distance_line nu comov_nu nu_line time_explosion =
        Except.ok
          (((if |(comov_nu - nu_line) / comov_nu| < CLOSE_LINE_THRESHOLD then (0 : ℝ)
              else comov_nu - nu_line) / nu) * C_SPEED_OF_LIGHT *
            time_explosion)) := by
  have hne : nu_line ≠ 0 := ne_of_gt hline
  unfold calculate_distance_line
  simp only [hne, if_false, if_neg hne]
  constructor
  · by_cases h : |(comov_nu - nu_line) / comov_nu| < CLOSE_LINE_THRESHOLD
    · simp [h]
    · simp only [h, if_false]
      by_cases h2 : comov_nu - nu_line ≥ 0
      · simp [h2]; linarith
      · simp only [h2, if_false]
        constructor
        · intro _; linarith [lt_of_not_ge h2]
        · intro _; trivial
  · intro h0
    by_cases h : |(comov_nu - nu_line) / comov_nu| < CLOSE_LINE_THRESHOLD
    · simp [h]
    · simp only [h, if_false] at h0 ⊢
      simp [ge_iff_le, h0]

/-- Witness for C2's amended theorem at `nu = 2`, `comov_nu = 5`, `nu_line = 3`,
`t_exp = 7` (no clamp, `nu_diff = 2 ≥ 0`). -/
theorem calculate_distance_line_spec_witness :
    (0 : ℝ) < 3 ∧
      calculate_distance_line 2 5 3 7 =
        Except.ok
          (((if |((5 : ℝ) - 3) / 5| < CLOSE_LINE_THRESHOLD then (0 : ℝ)
              else 5 - 3) / 2) * C_SPEED_OF_LIGHT * 7) := by
  have h := calculate_distance_line_spec 2 5 3 7 (by norm_num)
  have habs : |((5 : ℝ) - 3) / 5| = 2 / 5 := by
    rw [abs_of_nonneg (by norm_num : (0 : ℝ) ≤ ((5 : ℝ) - 3) / 5)]; norm_num
  refine ⟨by norm_num, h.2 ?_⟩
  rw [if_neg (by rw [habs]; norm_num [CLOSE_LINE_THRESHOLD])]
  norm_num

/-- Claim C3 (counterexample): the claimed numerical tie-break — that an
outward result is preferred whenever `|d_in - d_out| < eps * r_outer` — does
not exist in the code for any tolerance `eps > 0`: arbitrarily close inward
and outward distances still yield `delta_shell = -1` whenever `mu < 0` and the
inner discriminant is nonnegative. -/
theorem calculate_distance_boundary_tie_break_counterexample :
    ¬ ∃ eps : ℝ, 0 < eps ∧ ∀ r mu r_inner r_outer : ℝ,
      0 ≤ r_inner → r_inner < r → r ≤ r_outer →
      |(-r * mu - Real.sqrt (r_inner ^ 2 + r ^ 2 * (mu ^ 2 - 1))) -
          (Real.sqrt (r_outer ^ 2 + (mu ^ 2 - 1) * r ^ 2) - r * mu)| <
        eps * r_outer →
      (calculate_distance_boundary r mu r_inner r_outer).2 = 1 := by
  rintro ⟨eps, heps, H⟩
  set e : ℝ := min eps 1 with he
  have he0 : 0 < e := lt_min heps one_pos
  have he1 : e ≤ 1 := min_le_right _ _
  have heeps : e ≤ eps := min_le_left _ _
  have hnn : (0 : ℝ) ≤ 1 - (e / 4) ^ 2 := by nlinarith
  have hri2 : Real.sqrt (1 - (e / 4) ^ 2) ^ 2 = 1 - (e / 4) ^ 2 :=
    Real.sq_sqrt hnn
  have hriz : 0 ≤ Real.sqrt (1 - (e / 4) ^ 2) := Real.sqrt_nonneg _
  have hrilt : Real.sqrt (1 - (e / 4) ^ 2) < 1 := by
    have h1 : (1 : ℝ) - (e / 4) ^ 2 < 1 := by nlinarith
    calc Real.sqrt (1 - (e / 4) ^ 2) < Real.sqrt 1 := Real.sqrt_lt_sqrt hnn h1
    _ = 1 := Real.sqrt_one
  have hcheck : Real.sqrt (1 - (e / 4) ^ 2) ^ 2 +
      (1 : ℝ) ^ 2 * ((-(e / 4)) ^ 2 - 1) = 0 := by
    rw [hri2]; ring
  have hsqrt0 : Real.sqrt (Real.sqrt (1 - (e / 4) ^ 2) ^ 2 +
      (1 : ℝ) ^ 2 * ((-(e / 4)) ^ 2 - 1)) = 0 := by
    rw [hcheck, Real.sqrt_zero]
  have hsqrt1 : Real.sqrt ((1 : ℝ) ^ 2 + ((-(e / 4)) ^ 2 - 1) * 1 ^ 2) = e / 4 := by
    have h2 : (1 : ℝ) ^ 2 + ((-(e / 4)) ^ 2 - 1) * 1 ^ 2 = (e / 4) ^ 2 := by ring
    rw [h2, Real.sqrt_sq (by positivity)]
  have hdist : |(-(1 : ℝ) * (-(e / 4)) -
      Real.sqrt (Real.sqrt (1 - (e / 4) ^ 2) ^ 2 +
        (1 : ℝ) ^ 2 * ((-(e / 4)) ^ 2 - 1))) -
      (Real.sqrt ((1 : ℝ) ^ 2 + ((-(e / 4)) ^ 2 - 1) * 1 ^ 2) -
        1 * (-(e / 4)))| < eps * 1 := by
    rw [hsqrt0, hsqrt1]
    have h3 : (-(1 : ℝ) * (-(e / 4)) - 0) - (e / 4 - 1 * (-(e / 4))) = -(e / 4) := by
      ring
    rw [h3, abs_neg, abs_of_nonneg (by positivity)]
    linarith
  have hcontra := H 1 (-(e / 4)) (Real.sqrt (1 - (e / 4) ^ 2)) 1
    hriz hrilt le_rfl hdist
  have hval : (calculate_distance_boundary 1 (-(e / 4))
      (Real.sqrt (1 - (e / 4) ^ 2)) 1).2 = -1 := by
    unfold calculate_distance_boundary
    rw [if_neg (by push_neg; linarith), if_pos (ge_of_eq hcheck)]
  rw [hcontra] at hval
  norm_num at hval

/-- Claim C3 (amended): for `0 ≤ r_inner < r ≤ r_outer`,
`calculate_distance_boundary` returns the outward distance
`√(r_outer² + (μ²−1)r²) − rμ` with `delta_shell = +1` when `μ > 0`; it returns
the inward distance `−rμ − √D` with `D = r_inner² + r²(μ²−1)` and
`delta_shell = −1` exactly when `μ < 0` and `D ≥ 0`; otherwise the ray misses
the inner boundary and the outward distance with `delta_shell = +1` is
returned.  (The claimed `ε`-tie-break does not exist in the code.) -/
theorem calculate_distance_boundary_spec (r mu r_inner r_outer : ℝ)
    (h0 : 0 ≤ r_inner) (h1 : r_inner < r) (h2 : r ≤ r_outer) :
    (0 < mu → calculate_distance_boundary r mu r_inner r_outer =
        (Real.sqrt (r_outer ^ 2 + (mu ^ 2 - 1) * r ^ 2) - r * mu, 1)) ∧
    ((calculate_distance_boundary r mu r_inner r_outer).2 = -1 ↔
        mu < 0 ∧ 0 ≤ r_inner ^ 2 + r ^ 2 * (mu ^ 2 - 1)) ∧
    (mu < 0 → 0 ≤ r_inner ^ 2 + r ^ 2 * (mu ^ 2 - 1) →
        calculate_distance_boundary r mu r_inner r_outer =
          (-r * mu - Real.sqrt (r_inner ^ 2 + r ^ 2 * (mu ^ 2 - 1)), -1)) ∧
    (¬ 0 < mu → r_inner ^ 2 + r ^ 2 * (mu ^ 2 - 1) < 0 →
        calculate_distance_boundary r mu r_inner r_outer =
          (Real.sqrt (r_outer ^ 2 + (mu ^ 2 - 1) * r ^ 2) - r * mu, 1)) := by
  unfold calculate_distance_boundary
  by_cases hmu : mu > 0
  · rw [if_pos hmu]
    refine ⟨fun _ => rfl, ?_, fun h _ => absurd hmu (not_lt.2 h.le), fun h => absurd hmu h⟩
    constructor
    · intro h; norm_num at h
    · rintro ⟨h, -⟩; exact absurd hmu (not_lt.2 h.le)
  · rw [if_neg hmu]
    by_cases hc : r_inner ^ 2 + r ^ 2 * (mu ^ 2 - 1) ≥ 0
    · rw [if_pos hc]
      have hmune : mu ≠ 0 := by
        intro h
        rw [h] at hc
        nlinarith
      have hmuneg : mu < 0 := lt_of_le_of_ne (not_lt.1 hmu) hmune
      exact ⟨fun h => absurd h hmu, ⟨fun _ => ⟨hmuneg, hc⟩, fun _ => rfl⟩,
        fun _ _ => rfl, fun _ h => absurd hc (not_le.2 h)⟩
    · rw [if_neg hc]
      refine ⟨fun h => absurd h hmu, ?_, fun _ h => absurd h hc,
        fun _ _ => rfl⟩
      constructor
      · intro h; norm_num at h
      · rintro ⟨-, h⟩; exact absurd h hc

/-- Witness for C3's amended theorem at `r_inner = 1`, `r = 2`, `r_outer = 3`,
`mu = -1` (inward hit: `D = 1 ≥ 0`). -/
theorem calculate_distance_boundary_spec_witness :
    (0 : ℝ) ≤ 1 ∧ (1 : ℝ) < 2 ∧ (2 : ℝ) ≤ 3 ∧
      ((-1 : ℝ) < 0 → 0 ≤ (1 : ℝ) ^ 2 + 2 ^ 2 * ((-1 : ℝ) ^ 2 - 1) →
        calculate_distance_boundary 2 (-1) 1 3 =
          (-2 * (-1) - Real.sqrt ((1 : ℝ) ^ 2 + 2 ^ 2 * ((-1 : ℝ) ^ 2 - 1)), -1)) :=
  ⟨by norm_num, by norm_num, by norm_num,
    (calculate_distance_boundary_spec 2 (-1) 1 3 (by norm_num) (by norm_num)
      (by norm_num)).2.2.1⟩

/-- Claim C1: every step of the `trace_packet` line walk selects its event by
the spec's decision rule, with ties favoring BOUNDARY over E_SCATTER over
LINE: boundary when `d_boundary` is `≤` both other distances; else electron
scatter when `d_scatter` is `<` both; else LINE at the current line when the
accumulated line-plus-electron optical depth exceeds the sampled tau budget;
otherwise the walk advances to the next line with the electron distance
recomputed from the remaining tau budget. -/
theorem trace_packet_step_follows_spec (lineNu tauSob : ℕ → ℝ) (L : ℕ)
    (nu comov_nu time_explosion ne dB tau_event : ℝ) (cur : ℕ)
    (tauComb dE dT : ℝ) (hcur : cur < L)
    (hok : calculate_distance_line nu comov_nu (lineNu cur) time_explosion =
      Except.ok dT) :
    trace_packet_loop lineNu tauSob L nu comov_nu time_explosion ne dB
        tau_event cur tauComb dE =
      match spec_decision dB dT dE
          ((tauComb + tauSob cur) + calculate_tau_electron ne dT) tau_event with
      | StepChoice.BOUNDARY => Except.ok ⟨dB, InteractionType.BOUNDARY, cur⟩
      | StepChoice.ESCATTER => Except.ok ⟨dE, InteractionType.ESCATTERING, cur⟩
      | StepChoice.LINE => Except.ok ⟨dT, InteractionType.LINE, cur⟩
      | StepChoice.ADVANCE =>
          trace_packet_loop lineNu tauSob L nu comov_nu time_explosion ne dB
            tau_event (cur + 1) (tauComb + tauSob cur)
            (calculate_distance_electron ne (tau_event - (tauComb + tauSob cur))) := by
  have hred : trace_packet_loop lineNu tauSob L nu comov_nu time_explosion ne dB
      tau_event cur tauComb dE =
      if dB ≤ dT ∧ dB ≤ dE then
        Except.ok ⟨dB, InteractionType.BOUNDARY, cur⟩
      else if dE < dT ∧ dE < dB then
        Except.ok ⟨dE, InteractionType.ESCATTERING, cur⟩
      else if (tauComb + tauSob cur) + calculate_tau_electron ne dT > tau_event then
        Except.ok ⟨dT, InteractionType.LINE, cur⟩
      else
        trace_packet_loop lineNu tauSob L nu comov_nu time_explosion ne dB
          tau_event (cur + 1) (tauComb + tauSob cur)
          (calculate_distance_electron ne (tau_event - (tauComb + tauSob cur))) := by
    rw [trace_packet_loop, dif_pos hcur, hok]
  rw [hred]
  unfold spec_decision
  split_ifs <;> rfl

/-- Witness for C1 at a concrete input where the boundary branch fires. -/
theorem trace_packet_step_follows_spec_witness :
    (0 : ℕ) < 1 ∧
    calculate_distance_line 1 4 3 1 = Except.ok C_SPEED_OF_LIGHT ∧
    trace_packet_loop (fun _ => 3) (fun _ => 0) 1 1 4 1 0 1 5 0 0 2 =
      match spec_decision 1 C_SPEED_OF_LIGHT 2
          ((0 + 0) + calculate_tau_electron 0 C_SPEED_OF_LIGHT) 5 with
      | StepChoice.BOUNDARY => Except.ok ⟨1, InteractionType.BOUNDARY, 0⟩
      | StepChoice.ESCATTER => Except.ok ⟨2, InteractionType.ESCATTERING, 0⟩
      | StepChoice.LINE => Except.ok ⟨C_SPEED_OF_LIGHT, InteractionType.LINE, 0⟩
      | StepChoice.ADVANCE =>
          trace_packet_loop (fun _ => 3) (fun _ => 0) 1 1 4 1 0 1 5 1 (0 + 0)
            (calculate_distance_electron 0 (5 - (0 + 0))) := by
  have habs : |((4 : ℝ) - 3) / 4| = 1 / 4 := by
    rw [abs_of_nonneg (by norm_num)]; norm_num
  have hcond : ¬ |((4 : ℝ) - 3) / 4| < CLOSE_LINE_THRESHOLD := by
    rw [habs]; norm_num [CLOSE_LINE_THRESHOLD]
  have hok : calculate_distance_line 1 4 3 1 = Except.ok C_SPEED_OF_LIGHT := by
    simp only [calculate_distance_line]
    rw [if_neg (by norm_num : ¬ ((3 : ℝ) = 0))]
    simp only [if_neg hcond]
    rw [if_pos (by norm_num : ((4 : ℝ) - 3) ≥ 0)]
    norm_num
  exact ⟨by norm_num, hok,
    trace_packet_step_follows_spec (fun _ => 3) (fun _ => 0) 1 1 4 1 0 1 5 0 0 2
      C_SPEED_OF_LIGHT (by norm_num) hok⟩

/-- Claim C4: for every packet and chosen distance `d ≥ 0`, `move_rpacket`
computes the Doppler factor `D = 1 − μβ` at the pre-move `r`, adds `E·D·d` to
`j_estimator[shell]` and `E·D·d·(ν·D)` to `nu_bar_estimator[shell]` using the
pre-move values, then sets `r' = √(r² + d² + 2rdμ)` and `μ' = (rμ + d)/r'`,
leaving `ν`, `E`, the shell id, the line id and the status unchanged. -/
theorem move_rpacket_spec (p : RPacket) (est : NumbaEstimator)
    (distance time_explosion : ℝ) (hr : 0 < p.r) (hd : 0 ≤ distance) :
    move_rpacket p distance time_explosion est =
      ({ p with
          r := Real.sqrt (p.r ^ 2 + distance ^ 2 + 2 * p.r * distance * p.mu),
          mu := (p.r * p.mu + distance) /
            Real.sqrt (p.r ^ 2 + distance ^ 2 + 2 * p.r * distance * p.mu) },
        { j_estimator :=
            Function.update est.j_estimator p.current_shell_id.toNat
              (est.j_estimator p.current_shell_id.toNat +
                p.energy * get_doppler_factor p.r p.mu time_explosion * distance),
          nu_bar_estimator :=
            Function.update est.nu_bar_estimator p.current_shell_id.toNat
              (est.nu_bar_estimator p.current_shell_id.toNat +
                p.energy * get_doppler_factor p.r p.mu time_explosion * distance *
                  (p.nu * get_doppler_factor p.r p.mu time_explosion)) }) := by
  simp only [move_rpacket]
  rcases eq_or_lt_of_le hd with hd' | hd'
  · rw [← hd']
    rw [if_neg (lt_irrefl (0 : ℝ))]
    have hs : p.r ^ 2 + (0 : ℝ) ^ 2 + 2 * p.r * 0 * p.mu = p.r ^ 2 := by ring
    rw [hs, Real.sqrt_sq hr.le]
    have hmu0 : (p.r * p.mu + 0) / p.r = p.mu := by
      rw [add_zero, mul_comm p.r p.mu, mul_div_assoc, div_self hr.ne', mul_one]
    rw [hmu0]
  · rw [if_pos hd']
    rw [mul_comm p.mu p.r]

/-- Witness for C4 at `r = 3`, `μ = 0`, `d = 4`. -/
theorem move_rpacket_spec_witness :
    (0 : ℝ) < 3 ∧ (0 : ℝ) ≤ 4 ∧
    move_rpacket ⟨3, 0, 5, 7, 0, 0, PacketStatus.IN_PROCESS⟩ 4 1
        ⟨fun _ => 0, fun _ => 0⟩ =
      (⟨Real.sqrt ((3 : ℝ) ^ 2 + 4 ^ 2 + 2 * 3 * 4 * 0),
          ((3 : ℝ) * 0 + 4) / Real.sqrt ((3 : ℝ) ^ 2 + 4 ^ 2 + 2 * 3 * 4 * 0),
          5, 7, 0, 0, PacketStatus.IN_PROCESS⟩,
        ⟨Function.update (fun _ => (0 : ℝ)) (Int.toNat 0)
            ((0 : ℝ) + 7 * get_doppler_factor 3 0 1 * 4),
          Function.update (fun _ => (0 : ℝ)) (Int.toNat 0)
            ((0 : ℝ) + 7 * get_doppler_factor 3 0 1 * 4 *
              (5 * get_doppler_factor 3 0 1))⟩) :=
  ⟨by norm_num, by norm_num,
    move_rpacket_spec ⟨3, 0, 5, 7, 0, 0, PacketStatus.IN_PROCESS⟩
      ⟨fun _ => 0, fun _ => 0⟩ 4 1 (by norm_num) (by norm_num)⟩

/-- Claim C6: crossing a shell boundary in a grid of `S` shells: with
`Δshell = +1` from shell `S−1` the status becomes EMITTED; with `Δshell = −1`
from shell `0` the status becomes REABSORBED; otherwise the shell id changes
by `Δshell` and the status is untouched; in the terminating cases the shell id
is unchanged. -/
theorem move_packet_across_shell_boundary_spec (p : RPacket) (S : ℤ)
    (h0 : 0 ≤ p.current_shell_id) (hS : p.current_shell_id < S) :
    (move_packet_across_shell_boundary p 1 S =
        (if p.current_shell_id = S - 1 then
          { p with status := PacketStatus.EMITTED }
        else { p with current_shell_id := p.current_shell_id + 1 })) ∧
    (move_packet_across_shell_boundary p (-1) S =
        (if p.current_shell_id = 0 then
          { p with status := PacketStatus.REABSORBED }
        else { p with current_shell_id := p.current_shell_id - 1 })) := by
  constructor
  · unfold move_packet_across_shell_boundary
    by_cases h : p.current_shell_id = S - 1
    · rw [if_pos (by omega), if_pos h]
    · rw [if_neg (by omega), if_neg (by omega), if_neg h]
  · unfold move_packet_across_shell_boundary
    by_cases h : p.current_shell_id = 0
    · rw [if_neg (by omega), if_pos (by omega), if_pos h]
    · rw [if_neg (by omega), if_neg (by omega), if_neg h]
      have harith : p.current_shell_id + (-1) = p.current_shell_id - 1 := by ring
      rw [harith]

/-- Witness for C6 at shell 0 of a 2-shell grid. -/
theorem move_packet_across_shell_boundary_spec_witness :
    (0 : ℤ) ≤ 0 ∧ (0 : ℤ) < 2 ∧
    ((move_packet_across_shell_boundary ⟨1, 1, 1, 1, 0, 0, PacketStatus.IN_PROCESS⟩ 1 2 =
        (if (0 : ℤ) = 2 - 1 then
          { RPacket.mk 1 1 1 1 0 0 PacketStatus.IN_PROCESS with
              status := PacketStatus.EMITTED }
        else { RPacket.mk 1 1 1 1 0 0 PacketStatus.IN_PROCESS with
              current_shell_id := 0 + 1 })) ∧
      (move_packet_across_shell_boundary ⟨1, 1, 1, 1, 0, 0, PacketStatus.IN_PROCESS⟩ (-1) 2 =
        (if (0 : ℤ) = 0 then
          { RPacket.mk 1 1 1 1 0 0 PacketStatus.IN_PROCESS with
              status := PacketStatus.REABSORBED }
        else { RPacket.mk 1 1 1 1 0 0 PacketStatus.IN_PROCESS with
              current_shell_id := 0 - 1 }))) :=
  ⟨le_refl 0, by norm_num,
    move_packet_across_shell_boundary_spec ⟨1, 1, 1, 1, 0, 0, PacketStatus.IN_PROCESS⟩ 2
      (le_refl 0) (by norm_num)⟩

/-- Claim C5: a packet that leaves the transport loop has status EMITTED or
REABSORBED (the `while` guard admits only IN_PROCESS); the output buffer gets
`+E` for EMITTED and `-E` for REABSORBED packets (negative when `E > 0`) and
is not written for any other status; and no transport operation ever sets the
packet's own energy field negative: `move_rpacket` and `line_emission` leave
it unchanged, and the frame transformations scale it by positive Doppler
ratios, so a positive energy stays positive — the sign flip happens only in
the output buffer. -/
theorem packet_termination_energy_sign :
    (∀ (body : RPacket → RPacket) (fuel : ℕ) (p p' : RPacket),
        single_packet_loop_while body fuel p = some p' →
        p'.status = PacketStatus.EMITTED ∨ p'.status = PacketStatus.REABSORBED) ∧
    (∀ p : RPacket, p.status = PacketStatus.EMITTED →
        output_energy_entry p = some p.energy) ∧
    (∀ p : RPacket, p.status = PacketStatus.REABSORBED →
        output_energy_entry p = some (-p.energy)) ∧
    (∀ p : RPacket, p.status = PacketStatus.IN_PROCESS →
        output_energy_entry p = none) ∧
    (∀ p : RPacket, 0 < p.energy → p.status = PacketStatus.REABSORBED →
        ∃ e_out, output_energy_entry p = some e_out ∧ e_out < 0) ∧
    (∀ (p : RPacket) (d t : ℝ) (est : NumbaEstimator),
        ((move_rpacket p d t est).1).energy = p.energy) ∧
    (∀ (p : RPacket) (eid : ℕ) (lineNu : ℕ → ℝ) (t : ℝ),
        (line_emission p eid lineNu t).energy = p.energy) ∧
    (∀ (p : RPacket) (t : ℝ), 0 < p.energy →
        0 < get_inverse_doppler_factor p.r p.mu t →
        0 < (set_packet_props_partial_relativity p t).energy) ∧
    (∀ (p : RPacket) (t mu_cmf : ℝ), 0 < p.energy → |p.mu| ≤ 1 →
        |mu_cmf| ≤ 1 → 0 ≤ p.r → 0 < t → p.r < C_SPEED_OF_LIGHT * t →
        0 < (thomson_scatter p t mu_cmf).energy) := by
  refine ⟨?_, ?_, ?_, ?_, ?_, ?_, ?_, ?_, ?_⟩
  · intro body fuel
    induction fuel with
    | zero =>
      intro p p' h
      rw [single_packet_loop_while] at h
      split at h
      · exact absurd h (by simp)
      · next hs =>
        obtain rfl := Option.some.inj h
        rcases hst : p.status with _ | _ | _
        · exact absurd hst hs
        · exact Or.inl rfl
        · exact Or.inr rfl
    | succ n ih =>
      intro p p' h
      rw [single_packet_loop_while] at h
      split at h
      · exact ih (body p) p' h
      · next hs =>
        obtain rfl := Option.some.inj h
        rcases hst : p.status with _ | _ | _
        · exact absurd hst hs
        · exact Or.inl rfl
        · exact Or.inr rfl
  · intro p h
    simp [output_energy_entry, h]
  · intro p h
    simp [output_energy_entry, h]
  · intro p h
    simp [output_energy_entry, h]
  · intro p hE h
    exact ⟨-p.energy, by simp [output_energy_entry, h], by linarith⟩
  · intro p d t est
    simp only [move_rpacket]
    split <;> rfl
  · intro p eid lineNu t
    rfl
  · intro p t hE hD
    exact mul_pos hE hD
  · intro p t mu_cmf hE hmu hmc hr ht hrc
    simp only [thomson_scatter]
    set b : ℝ := (p.r / t) / C_SPEED_OF_LIGHT with hb
    have hC : (0 : ℝ) < C_SPEED_OF_LIGHT := by norm_num [C_SPEED_OF_LIGHT]
    have hb0 : 0 ≤ b := div_nonneg (div_nonneg hr ht.le) hC.le
    have hb1 : b < 1 := by
      rw [hb, div_div, div_lt_one (by positivity)]
      linarith
    obtain ⟨hm1, hm2⟩ := abs_le.1 hmu
    obtain ⟨hc1, hc2⟩ := abs_le.1 hmc
    have hden : 0 < 1 + b * mu_cmf := by
      nlinarith [mul_nonneg hb0 (by linarith : (0 : ℝ) ≤ mu_cmf + 1)]
    have hDold : 0 < get_doppler_factor p.r p.mu t := by
      rw [get_doppler_factor, ← hb]
      nlinarith [mul_nonneg hb0 (by linarith : (0 : ℝ) ≤ 1 - p.mu)]
    have hkey : 1 - (mu_cmf + b) / (1 + b * mu_cmf) * b =
        (1 - b ^ 2) / (1 + b * mu_cmf) := by
      field_simp
      ring
    have hDnew : 0 < 1 - (mu_cmf + b) / (1 + b * mu_cmf) * b := by
      rw [hkey]
      exact div_pos (by nlinarith) hden
    exact div_pos (mul_pos hE hDold) hDnew

/-- Witness for C5 at concrete packets: an already-EMITTED packet leaves the
loop at once, the buffer entries at energy 2, and the energy-writing
operations at concrete physical inputs. -/
theorem packet_termination_energy_sign_witness :
    ((RPacket.mk 1 0 1 2 0 0 PacketStatus.EMITTED).status = PacketStatus.EMITTED ∨
      (RPacket.mk 1 0 1 2 0 0 PacketStatus.EMITTED).status = PacketStatus.REABSORBED) ∧
    output_energy_entry (RPacket.mk 1 0 1 2 0 0 PacketStatus.EMITTED) = some 2 ∧
    output_energy_entry (RPacket.mk 1 0 1 2 0 0 PacketStatus.REABSORBED) = some (-2) ∧
    output_energy_entry (RPacket.mk 1 0 1 2 0 0 PacketStatus.IN_PROCESS) = none ∧
    (∃ e_out,
      output_energy_entry (RPacket.mk 1 0 1 2 0 0 PacketStatus.REABSORBED) =
        some e_out ∧ e_out < 0) ∧
    ((move_rpacket (RPacket.mk 3 0 5 7 0 0 PacketStatus.IN_PROCESS) 4 1
        (NumbaEstimator.mk (fun _ => 0) (fun _ => 0))).1).energy = 7 ∧
    (line_emission (RPacket.mk 3 0 5 7 0 0 PacketStatus.IN_PROCESS) 0
        (fun _ => 1) 1).energy = 7 ∧
    0 < (set_packet_props_partial_relativity
        (RPacket.mk 1 0 1 2 0 0 PacketStatus.IN_PROCESS) 1).energy ∧
    0 < (thomson_scatter (RPacket.mk 1 0 1 2 0 0 PacketStatus.IN_PROCESS) 1 0).energy := by
  obtain ⟨h1, h2, h3, h4, h5, h6, h7, h8, h9⟩ := packet_termination_energy_sign
  exact ⟨h1 id 0 (RPacket.mk 1 0 1 2 0 0 PacketStatus.EMITTED)
      (RPacket.mk 1 0 1 2 0 0 PacketStatus.EMITTED) rfl,
    h2 _ rfl, h3 _ rfl, h4 _ rfl, h5 _ (by norm_num) rfl, h6 _ 4 1 _, h7 _ 0 _ 1,
    h8 _ 1 (by norm_num) (by norm_num [get_inverse_doppler_factor]),
    h9 _ 1 0 (by norm_num) (by simp) (by simp) (by norm_num) (by norm_num)
      (by norm_num [C_SPEED_OF_LIGHT])⟩

/-- Claim C7: for every shell `s` with `j_estimator[s] > 0`,
`calculate_radiationfield_properties` returns
`T_rad[s] = (π⁴/(15·24·ζ(5)))·(h/k_B) · ν̄J[s] / J[s]` and
`W[s] = J[s] / (4 σ_SB T_rad[s]⁴ t_sim V[s])`. -/
theorem calculate_radiationfield_properties_spec (h_cgs k_B sigma_sb zeta5 : ℝ)
    (nu_bar_estimator j_estimator volume : ℕ → ℝ) (time_of_simulation : ℝ)
    (s : ℕ) (hj : 0 < j_estimator s) :
    (calculate_radiationfield_properties h_cgs k_B sigma_sb zeta5
        nu_bar_estimator j_estimator volume time_of_simulation).1 s =
      (Real.pi ^ 4 / (15 * 24 * zeta5)) * (h_cgs / k_B) * nu_bar_estimator s /
        j_estimator s ∧
    (calculate_radiationfield_properties h_cgs k_B sigma_sb zeta5
        nu_bar_estimator j_estimator volume time_of_simulation).2 s =
      j_estimator s /
        (4 * sigma_sb *
          ((calculate_radiationfield_properties h_cgs k_B sigma_sb zeta5
              nu_bar_estimator j_estimator volume time_of_simulation).1 s) ^ 4 *
          time_of_simulation * volume s) :=
  ⟨rfl, rfl⟩

/-- Witness for C7 with unit estimators and constants. -/
theorem calculate_radiationfield_properties_spec_witness :
    (0 : ℝ) < 1 ∧
    (calculate_radiationfield_properties 1 1 1 1 (fun _ => 1) (fun _ => 1)
        (fun _ => 1) 1).1 0 =
      (Real.pi ^ 4 / (15 * 24 * 1)) * ((1 : ℝ) / 1) * 1 / 1 ∧
    (calculate_radiationfield_properties 1 1 1 1 (fun _ => 1) (fun _ => 1)
        (fun _ => 1) 1).2 0 =
      1 /
        (4 * 1 *
          ((calculate_radiationfield_properties 1 1 1 1 (fun _ => 1)
              (fun _ => 1) (fun _ => 1) 1).1 0) ^ 4 * 1 * 1) := by
  obtain ⟨ha, hb⟩ := calculate_radiationfield_properties_spec 1 1 1 1
    (fun _ => 1) (fun _ => 1) (fun _ => 1) 1 0 (by norm_num)
  exact ⟨by norm_num, ha, hb⟩

/-- Claim C8: requesting GPU mode for the integrated spectrum without an
available CUDA device makes `from_config` raise at construction (in both the
`transport/montecarlo/base.py` and the legacy `montecarlo/base.py` versions);
CPU mode never raises on this ground; and AUTOMATIC mode enables GPU use
exactly when CUDA is available. -/
theorem from_config_use_gpu_spec (running_mode : String) (cuda_available : Bool) :
    (running_mode = "GPU" → cuda_available = false →
        from_config_use_gpu running_mode cuda_available =
            Except.error ComputeModeError.noCudaGpu ∧
          from_config_use_gpu_legacy running_mode cuda_available =
            Except.error ComputeModeError.noCudaGpu) ∧
    (running_mode = "CPU" →
        from_config_use_gpu running_mode cuda_available = Except.ok false ∧
          from_config_use_gpu_legacy running_mode cuda_available = Except.ok false) ∧
    (running_mode = "AUTOMATIC" →
        from_config_use_gpu running_mode cuda_available = Except.ok cuda_available ∧
          from_config_use_gpu_legacy running_mode cuda_available =
            Except.ok cuda_available) := by
  refine ⟨?_, ?_, ?_⟩
  · intro h hc
    subst hc
    exact ⟨by simp [from_config_use_gpu, h], by simp [from_config_use_gpu_legacy, h]⟩
  · intro h
    exact ⟨by simp [from_config_use_gpu, h], by simp [from_config_use_gpu_legacy, h]⟩
  · intro h
    refine ⟨by simp [from_config_use_gpu, h], ?_⟩
    cases cuda_available <;> simp [from_config_use_gpu_legacy, h]

/-- Witness for C8 at `running_mode = "GPU"` with no CUDA device. -/
theorem from_config_use_gpu_spec_witness :
    from_config_use_gpu "GPU" false = Except.error ComputeModeError.noCudaGpu ∧
    from_config_use_gpu_legacy "GPU" false =
      Except.error ComputeModeError.noCudaGpu :=
  (from_config_use_gpu_spec "GPU" false).1 rfl rfl

/-- A row outside block `i` is untouched by that block's normalization step. -/
theorem normalize_block_step_notin (block_references : ℕ → ℕ) (tp : ℕ → ℕ → ℝ)
    (i j k : ℕ) (h : ¬ (block_references i ≤ j ∧ j < block_references (i + 1))) :
    normalize_block_step block_references tp i j k = tp j k := by
  simp only [normalize_block_step, if_neg h]

/-- Folding normalization steps over blocks that do not contain row `j`
leaves row `j` unchanged. -/
theorem foldl_normalize_block_step_untouched (block_references : ℕ → ℕ) (k : ℕ) :
    ∀ (l : List ℕ) (tp : ℕ → ℕ → ℝ) (j : ℕ),
      (∀ i', i' ∈ l → ¬ (block_references i' ≤ j ∧ j < block_references (i' + 1))) →
      l.foldl (normalize_block_step block_references) tp j k = tp j k := by
  intro l
  induction l with
  | nil => intro tp j _; rfl
  | cons a as ih =>
    intro tp j hdisj
    rw [List.foldl_cons]
    rw [ih (normalize_block_step block_references tp a) j
      (fun i' hi' => hdisj i' (List.mem_cons_of_mem a hi'))]
    exact normalize_block_step_notin block_references tp a j k
      (hdisj a (List.mem_cons_self a as))

/-- With nondecreasing block references, the value of a row of
`normalize_blocks` is decided by its own block's step alone, computed from the
original matrix. -/
theorem normalize_blocks_row (block_references : ℕ → ℕ) (B : ℕ)
    (hmono : ∀ a, block_references a ≤ block_references (a + 1))
    (tp : ℕ → ℕ → ℝ) (i j k : ℕ) (hi : i < B - 1)
    (hj1 : block_references i ≤ j) (hj2 : j < block_references (i + 1)) :
    normalize_blocks block_references B tp j k =
      normalize_block_step block_references tp i j k := by
  have hmono' : Monotone block_references := monotone_nat_of_le_succ hmono
  have hnotin : ∀ row : ℕ, block_references i ≤ row →
      row < block_references (i + 1) → ∀ i', i' ≠ i →
      ¬ (block_references i' ≤ row ∧ row < block_references (i' + 1)) := by
    rintro row h1 h2 i' hne ⟨ha, hb⟩
    rcases lt_or_gt_of_ne hne with hlt | hgt
    · have := hmono' (by omega : i' + 1 ≤ i)
      omega
    · have := hmono' (by omega : i + 1 ≤ i')
      omega
  have htp1 : ∀ row, block_references i ≤ row → row < block_references (i + 1) →
      (List.range i).foldl (normalize_block_step block_references) tp row k =
        tp row k := by
    intro row h1 h2
    exact foldl_normalize_block_step_untouched block_references k (List.range i)
      tp row (fun i' hi' => hnotin row h1 h2 i'
        (by have := List.mem_range.1 hi'; omega))
  have hm : B - 1 = i + 1 + (B - 1 - (i + 1)) := by omega
  simp only [normalize_blocks]
  rw [hm, List.range_add, List.range_succ, List.foldl_append, List.foldl_append,
    List.foldl_cons, List.foldl_nil]
  have hdisj : ∀ i', i' ∈ (List.range (B - 1 - (i + 1))).map ((i + 1) + ·) →
      ¬ (block_references i' ≤ j ∧ j < block_references (i' + 1)) := by
    intro i' hi'
    obtain ⟨x, -, rfl⟩ := List.mem_map.1 hi'
    exact hnotin j hj1 hj2 (i + 1 + x) (by omega)
  rw [foldl_normalize_block_step_untouched block_references k _ _ j hdisj]
  have hsum : (∑ l ∈ Finset.Ico (block_references i) (block_references (i + 1)),
      (List.range i).foldl (normalize_block_step block_references) tp l k) =
      ∑ l ∈ Finset.Ico (block_references i) (block_references (i + 1)), tp l k := by
    refine Finset.sum_congr rfl ?_
    intro l hl
    obtain ⟨hl1, hl2⟩ := Finset.mem_Ico.1 hl
    exact htp1 l hl1 hl2
  simp only [normalize_block_step, if_pos (And.intro hj1 hj2)]
  rw [hsum, htp1 j hj1 hj2]

/-- Claim C9: with `normalize` set and nondecreasing block references, every
entry of `fast_calculate_transition_probabilities` in a block
`[block_references i, block_references (i+1))` is divided by its column's sum
over the block when that sum is nonzero — the column of the block then sums
to 1 — and is left unchanged when the sum is exactly zero, so the division is
guarded and never performed by zero. -/
theorem fast_calculate_transition_probabilities_normalize_spec
    (transition_probability_coef : ℕ → ℝ)
    (beta_sobolev j_blues stimulated_emission_factor : ℕ → ℕ → ℝ)
    (transition_type : ℕ → ℤ) (lines_idx : ℕ → ℕ) (block_references : ℕ → ℕ)
    (B : ℕ) (hmono : ∀ a, block_references a ≤ block_references (a + 1))
    (i j k : ℕ) (hi : i < B - 1) (hj1 : block_references i ≤ j)
    (hj2 : j < block_references (i + 1)) :
    (fast_calculate_transition_probabilities transition_probability_coef
        beta_sobolev j_blues stimulated_emission_factor transition_type
        lines_idx block_references B true j k =
      if (∑ l ∈ Finset.Ico (block_references i) (block_references (i + 1)),
            transition_probabilities_unnormalized transition_probability_coef
              beta_sobolev j_blues stimulated_emission_factor transition_type
              lines_idx l k) ≠ 0 then
        transition_probabilities_unnormalized transition_probability_coef
            beta_sobolev j_blues stimulated_emission_factor transition_type
            lines_idx j k /
          ∑ l ∈ Finset.Ico (block_references i) (block_references (i + 1)),
            transition_probabilities_unnormalized transition_probability_coef
              beta_sobolev j_blues stimulated_emission_factor transition_type
              lines_idx l k
      else
        transition_probabilities_unnormalized transition_probability_coef
          beta_sobolev j_blues stimulated_emission_factor transition_type
          lines_idx j k) ∧
    ((∑ l ∈ Finset.Ico (block_references i) (block_references (i + 1)),
        transition_probabilities_unnormalized transition_probability_coef
          beta_sobolev j_blues stimulated_emission_factor transition_type
          lines_idx l k) ≠ 0 →
      (∑ l ∈ Finset.Ico (block_references i) (block_references (i + 1)),
        fast_calculate_transition_probabilities transition_probability_coef
          beta_sobolev j_blues stimulated_emission_factor transition_type
          lines_idx block_references B true l k) = 1) := by
  have hrow : ∀ row, block_references i ≤ row → row < block_references (i + 1) →
      fast_calculate_transition_probabilities transition_probability_coef
          beta_sobolev j_blues stimulated_emission_factor transition_type
          lines_idx block_references B true row k =
        if (∑ l ∈ Finset.Ico (block_references i) (block_references (i + 1)),
              transition_probabilities_unnormalized transition_probability_coef
                beta_sobolev j_blues stimulated_emission_factor transition_type
                lines_idx l k) ≠ 0 then
          transition_probabilities_unnormalized transition_probability_coef
              beta_sobolev j_blues stimulated_emission_factor transition_type
              lines_idx row k *
            (1 / ∑ l ∈ Finset.Ico (block_references i) (block_references (i + 1)),
              transition_probabilities_unnormalized transition_probability_coef
                beta_sobolev j_blues stimulated_emission_factor transition_type
                lines_idx l k)
        else
          transition_probabilities_unnormalized transition_probability_coef
            beta_sobolev j_blues stimulated_emission_factor transition_type
            lines_idx row k * 1 := by
    intro row h1 h2
    simp only [fast_calculate_transition_probabilities, if_true]
    rw [normalize_blocks_row block_references B hmono _ i row k hi h1 h2]
    simp only [normalize_block_step, if_pos (And.intro h1 h2)]
  constructor
  · rw [hrow j hj1 hj2]
    split_ifs with h
    · rw [mul_one_div]
    · rw [mul_one]
  · intro hS
    have hterm : ∀ l ∈ Finset.Ico (block_references i) (block_references (i + 1)),
        fast_calculate_transition_probabilities transition_probability_coef
            beta_sobolev j_blues stimulated_emission_factor transition_type
            lines_idx block_references B true l k =
          transition_probabilities_unnormalized transition_probability_coef
              beta_sobolev j_blues stimulated_emission_factor transition_type
              lines_idx l k *
            (1 / ∑ l ∈ Finset.Ico (block_references i) (block_references (i + 1)),
              transition_probabilities_unnormalized transition_probability_coef
                beta_sobolev j_blues stimulated_emission_factor transition_type
                lines_idx l k) := by
      intro l hl
      obtain ⟨hl1, hl2⟩ := Finset.mem_Ico.1 hl
      rw [hrow l hl1 hl2, if_pos hS]
    rw [Finset.sum_congr rfl hterm, ← Finset.sum_mul, mul_one_div, div_self hS]

/-- Witness for C9 on a single block `[0, 1)` with row value 2. -/
theorem fast_calculate_transition_probabilities_normalize_spec_witness :
    (0 : ℕ) < 2 - 1 ∧
    (fast_calculate_transition_probabilities (fun _ => 2) (fun _ _ => 1)
        (fun _ _ => 1) (fun _ _ => 1) (fun _ => 0) (fun n => n) (fun n => n) 2
        true 0 0 =
      if (∑ l ∈ Finset.Ico (0 : ℕ) 1,
            transition_probabilities_unnormalized (fun _ => 2) (fun _ _ => 1)
              (fun _ _ => 1) (fun _ _ => 1) (fun _ => 0) (fun n => n) l 0) ≠ 0 then
        transition_probabilities_unnormalized (fun _ => 2) (fun _ _ => 1)
            (fun _ _ => 1) (fun _ _ => 1) (fun _ => 0) (fun n => n) 0 0 /
          ∑ l ∈ Finset.Ico (0 : ℕ) 1,
            transition_probabilities_unnormalized (fun _ => 2) (fun _ _ => 1)
              (fun _ _ => 1) (fun _ _ => 1) (fun _ => 0) (fun n => n) l 0
      else
        transition_probabilities_unnormalized (fun _ => 2) (fun _ _ => 1)
          (fun _ _ => 1) (fun _ _ => 1) (fun _ => 0) (fun n => n) 0 0) ∧
    ((∑ l ∈ Finset.Ico (0 : ℕ) 1,
        transition_probabilities_unnormalized (fun _ => 2) (fun _ _ => 1)
          (fun _ _ => 1) (fun _ _ => 1) (fun _ => 0) (fun n => n) l 0) ≠ 0 →
      (∑ l ∈ Finset.Ico (0 : ℕ) 1,
        fast_calculate_transition_probabilities (fun _ => 2) (fun _ _ => 1)
          (fun _ _ => 1) (fun _ _ => 1) (fun _ => 0) (fun n => n) (fun n => n) 2
          true l 0) = 1) := by
  obtain ⟨hA, hB⟩ := fast_calculate_transition_probabilities_normalize_spec
    (fun _ => 2) (fun _ _ => 1) (fun _ _ => 1) (fun _ _ => 1) (fun _ => 0)
    (fun n => n) (fun n => n) 2 (fun a => Nat.le_succ a) 0 0 0 (by norm_num)
    (Nat.le_refl 0) (by norm_num)
  exact ⟨by norm_num, hA, hB⟩

end Tardis
